import Mathlib

/-!
Verification of the transfer-chunking orchestrator and balance reconciliation
logic of the LazorKit demo wallet application.

The definitions below are a shallow embedding of:

* `sendInChunks`, `sendTransaction` and `handleSendTransaction` from
  `src/components/TransactionPanel.tsx` (the chunked-transfer orchestrator);
* `TransactionsButton.handleActions` from `src/components/LazorkitButtons.tsx`
  (the external SDK call site, including its validation chain, its
  legacy-format fallback and its error-message categorization);
* `fetchBalance` from `src/app/page.tsx` (the debounced balance reconciler).

Modelling conventions:

* SOL amounts are JavaScript `number`s in the source; the specification's data
  model calls them decimals, so they are embedded as exact rationals (`ℚ`).
* The external transfer capability (`sendTransaction` inside the chunk loop,
  `signAndSendTransaction` inside `handleActions`) is modelled as an oracle
  supplied to the embedded function: `Except String Unit` is the settled
  outcome of one external call (`.error m` is a thrown exception with
  message `m`).
* React state setters become fields of explicit state records; `setProgress`
  notifications and external call attempts are recorded as an in-order event
  trace, so temporal claims about ordering are statements about that list.
* Timestamps are naturals (milliseconds); the balance read result is
  `Option ℕ` (lamports on success, `none` when the read throws).
* Display-only string formatting of amounts (`toFixed`) is kept abstract:
  the balance state stores the raw lamport value the formatted string is
  derived from.
-/

namespace LazorKit

/-- `leadsWith n h` is true when list `n` is an initial segment of `h`
(helper for the JavaScript `String.prototype.includes` used by the source's
error categorization). -/
def leadsWith : List Char → List Char → Bool
  | [], _ => true
  | _ :: _, [] => false
  | a :: as, b :: bs => a == b && leadsWith as bs

/-- `occursIn n h` is true when `n` occurs contiguously inside `h`. -/
def occursIn : List Char → List Char → Bool
  | n, [] => leadsWith n []
  | n, c :: cs => leadsWith n (c :: cs) || occursIn n cs

/-- JavaScript `hay.includes(needle)` on strings. -/
def includesStr (hay needle : String) : Bool :=
  occursIn needle.toList hay.toList

/-- JavaScript `s.trim()`: strips leading and trailing whitespace (modelled
over the character list so that it evaluates by reduction). -/
def jsTrim (s : String) : String :=
  String.mk
    (((s.toList.dropWhile Char.isWhitespace).reverse.dropWhile
        Char.isWhitespace).reverse)

/-- One greedy iteration list: `n` iterations of the source loop body
`chunkAmount = Math.min(MAX_CHUNK, remaining); remaining -= chunkAmount`,
collecting the chunk amounts (`TransactionPanel.tsx`, `sendInChunks`,
lines 144-159). -/
def chunkLoopAmounts : ℕ → ℚ → ℚ → List ℚ
  | 0, _, _ => []
  | n + 1, M, r => min M r :: chunkLoopAmounts n M (r - min M r)

/-- The chunk sequence produced by `sendInChunks` for a given total and
chunk bound: `chunks = Math.ceil(totalAmount / MAX_CHUNK)` iterations of the
greedy loop (`TransactionPanel.tsx` lines 138-145).  The source pins the
bound to the constant `MAX_CHUNK = 0.05`; the spec treats it as injected
configuration, so it is a parameter here. -/
def chunkPlan (total M : ℚ) : List ℚ :=
  chunkLoopAmounts (⌈total / M⌉).toNat M total

/-- The source's `MAX_CHUNK = 0.05` (`TransactionPanel.tsx` line 130). -/
def MAX_CHUNK : ℚ := 1 / 20

/-- Observable events of a `sendInChunks` run, in program order:
`prog cur tot` is a `setProgress({current: cur, total: tot})` notification,
`call a` is an external transfer attempt for amount `a`. -/
inductive TxEvent
  | prog (current total : ℕ)
  | call (amount : ℚ)
deriving DecidableEq

/-- Result of a `sendInChunks` run: the in-order event trace together with
the returned value — `.error m` models an exception with message `m`
propagating out of `sendInChunks`; `.ok (some s)` is the `successCount`
returned after the loop; `.ok none` is the `undefined` returned by the
single-transaction shortcut. -/
structure ChunkRun where
  events : List TxEvent
  result : Except String (Option ℕ)

/-- The external transfer attempts of a trace, in order. -/
def callAmounts : List TxEvent → List ℚ
  | [] => []
  | TxEvent.call a :: es => a :: callAmounts es
  | TxEvent.prog _ _ :: es => callAmounts es

/-- The progress notifications of a trace, in order. -/
def progEvents : List TxEvent → List (ℕ × ℕ)
  | [] => []
  | TxEvent.call _ :: es => progEvents es
  | TxEvent.prog c t :: es => (c, t) :: progEvents es

/-- The chunk loop of `sendInChunks` (`TransactionPanel.tsx` lines 144-159):
iterates `k` more times with current index `i`, remaining amount `r` and
success count `s`; each iteration emits `setProgress({current: i+1, total: n})`,
attempts the external call, and on failure rethrows
`Failed to send chunk (i+1)/n: (message)` without attempting further chunks.
(The per-iteration `setMessage` string, a display duplicate of the progress
notification, is not modelled.) -/
def sendLoop (oracle : ℕ → Except String Unit) (M : ℚ) (n : ℕ) :
    ℕ → ℕ → ℚ → ℕ → ChunkRun
  | _, 0, _, s => ⟨[], Except.ok (some s)⟩
  | i, k + 1, r, s =>
    let c := min M r
    match oracle i with
    | Except.ok _ =>
      let rest := sendLoop oracle M n (i + 1) k (r - c) (s + 1)
      ⟨TxEvent.prog (i + 1) n :: TxEvent.call c :: rest.events, rest.result⟩
    | Except.error m =>
      ⟨[TxEvent.prog (i + 1) n, TxEvent.call c],
        Except.error ("Failed to send chunk " ++ toString (i + 1) ++ "/" ++
          toString n ++ ": " ++ m)⟩

/-- `sendInChunks` (`TransactionPanel.tsx` lines 129-163), parameterized by
the chunk bound `M` (pinned to `MAX_CHUNK` by the source) and the external
transfer oracle.  Amounts at most `M` are submitted as one call whose value
(`undefined`) or exception is returned unmodified; larger amounts run the
greedy loop after an initial `setProgress({current: 0, total: chunks})`. -/
def sendInChunks (oracle : ℕ → Except String Unit) (M total : ℚ) : ChunkRun :=
  if total ≤ M then
    match oracle 0 with
    | Except.ok _ => ⟨[TxEvent.call total], Except.ok none⟩
    | Except.error m => ⟨[TxEvent.call total], Except.error m⟩
  else
    let n := (⌈total / M⌉).toNat
    let t := sendLoop oracle M n 0 n total 0
    ⟨TxEvent.prog 0 n :: t.events, t.result⟩

/-- An external transfer oracle whose every call succeeds. -/
def oracleAllOk : ℕ → Except String Unit := fun _ => Except.ok ()

/-- An external transfer oracle whose first call succeeds and whose second
call (index 1) fails with message `boom`. -/
def oracleFailAt2 : ℕ → Except String Unit :=
  fun i => if i < 1 then Except.ok () else Except.error "boom"

/-- The `TransactionPanel` React state touched by `handleSendTransaction`
(`TransactionPanel.tsx` lines 31-39): `txError`/`txSuccess` are
`string | false`, modelled as `Option String`. -/
structure PanelState where
  recipient : String
  amount : ℚ
  isSending : Bool
  txError : Option String
  txSuccess : Option String
  message : String

/-- A completed `handleSendTransaction` invocation: the panel state it leaves
behind and the in-order trace of progress notifications and external
transfer attempts it produced. -/
structure SendRun where
  post : PanelState
  events : List TxEvent

/-- `handleSendTransaction` (`TransactionPanel.tsx` lines 178-206).
Rejects an empty (after trim) recipient or a non-positive amount with a
validation message; for amounts above `MAX_CHUNK` it awaits `sendInChunks`,
recording success in `txSuccess` or the caught exception's message in
`txError`; for small amounts it only sets a status message (the actual
single transfer is triggered by the `TransactionsButton` click, outside this
function).  The `finally` block resets `isSending` and clears the progress
indicator. -/
def handleSendTransaction (oracle : ℕ → Except String Unit) (s : PanelState) :
    SendRun :=
  if jsTrim s.recipient = "" ∨ s.amount ≤ 0 then
    ⟨{ s with txError := some "Please enter valid recipient and amount." }, []⟩
  else
    let s1 : PanelState :=
      { s with isSending := true, txError := none, txSuccess := none, message := "" }
    if MAX_CHUNK < s.amount then
      let run := sendInChunks oracle MAX_CHUNK s.amount
      match run.result with
      | Except.ok _ =>
        ⟨{ s1 with
            txSuccess := some ("Successfully sent " ++ toString s.amount ++
              " SOL in multiple transactions!"),
            isSending := false }, run.events⟩
      | Except.error m =>
        ⟨{ s1 with txError := some m, isSending := false }, run.events⟩
    else
      ⟨{ s1 with
          message := "Sending " ++ toString s.amount ++ " SOL...",
          isSending := false }, []⟩

/-- Button modes of `TransactionsButton` (`LazorkitButtons.tsx`). -/
inductive BtnMode
  | idle
  | sign
  | transaction
deriving DecidableEq

/-- The props and wallet-hook state read by `TransactionsButton.handleActions`:
`amount` is an optional prop (`undefined` falls into the `!amount` guard),
`hasWallet` is `smartWalletPubkey` being non-null. -/
structure BtnInput where
  isConnected : Bool
  mode : BtnMode
  address : String
  amount : Option ℚ
  message : String
  hasWallet : Bool

/-- Outcome of one `handleActions` invocation: the error / success feedback
passed to the parent, and the list of `signAndSendTransaction` attempts in
order, each flagged with whether it forced the legacy (non-versioned)
transaction format. -/
structure BtnResult where
  error : Option String
  success : Option String
  attempts : List Bool

/-- `error.message?.toString() || 'Transaction failed'`. -/
def msgOrDefault (m : String) : String :=
  if m = "" then "Transaction failed" else m

/-- The ordered `errorMsg.includes(...)` categorization chain of
`handleActions` (`LazorkitButtons.tsx`), applied when the fallback condition
did not match.  Unrecognized messages are surfaced verbatim with a generic
wrapper. -/
def classifyTxError (msg : String) : String :=
  if includesStr msg "insufficient funds" then
    "Smart wallet has insufficient SOL balance. Please fund it first."
  else if includesStr msg "User rejected" || includesStr msg "reject" then
    "Transaction cancelled by user."
  else if includesStr msg "too large" || includesStr msg "oversized" then
    "Transaction too large. Try: 1) Send smaller amount, 2) Split into multiple transactions"
  else if includesStr msg "Invalid public key" then
    "Invalid recipient address."
  else if includesStr msg "Custom:1" then
    "Transaction failed. Please ensure: 1) Smart wallet is funded, 2) Network is devnet, 3) Amount is valid."
  else if includesStr msg "Already signing" then
    "Transaction already in progress. Please wait."
  else if includesStr msg "simulation failed" then
    "Transaction simulation failed. Please check wallet balance and network."
  else if includesStr msg "paymaster" then
    "Paymaster error. Please ensure: 1) RPC URL is correct, 2) Paymaster service is active."
  else
    "Transfer failed: " ++ msg ++ ". Please try again."

/-- `TransactionsButton.handleActions` (`LazorkitButtons.tsx`).
`validAddr` is the external address validator (`new PublicKey(...)`
succeeding); `tx1` is the settled outcome of the first
`signAndSendTransaction` attempt (versioned format), `tx2` of the legacy
fallback attempt (only consulted when the fallback condition matches);
`signRes` is the settled outcome of `signMessage` in sign mode. -/
def handleActions (validAddr : String → Bool) (inp : BtnInput)
    (tx1 tx2 signRes : Except String String) : BtnResult :=
  if inp.isConnected = false then
    ⟨some "Please connect your wallet first.", none, []⟩
  else
    match inp.mode with
    | BtnMode.idle => ⟨none, none, []⟩
    | BtnMode.sign =>
      if jsTrim inp.message = "" then
        ⟨some "Please enter a message to sign.", none, []⟩
      else
        match signRes with
        | Except.ok _ => ⟨none, some "Message signed successfully!", []⟩
        | Except.error m =>
          ⟨some (if m = "" then "Failed to sign message." else m), none, []⟩
    | BtnMode.transaction =>
      if jsTrim inp.address = "" then
        ⟨some "No receiver address provided.", none, []⟩
      else if inp.amount.getD 0 ≤ 0 then
        ⟨some "Please enter a valid amount greater than 0.", none, []⟩
      else if validAddr inp.address = false then
        ⟨some "Invalid Solana address. Please check and try again.", none, []⟩
      else if inp.hasWallet = false then
        ⟨some "Wallet not properly initialized.", none, []⟩
      else
        match tx1 with
        | Except.ok sig =>
          ⟨none, some ("Transaction sent! Signature: " ++ sig.take 32 ++ "..."),
            [false]⟩
        | Except.error m0 =>
          let errorMsg := msgOrDefault m0
          if includesStr errorMsg "versioned" || includesStr errorMsg "VersionedTransaction"
              || includesStr errorMsg "too large" then
            match tx2 with
            | Except.ok sig2 =>
              ⟨none, some ("Transaction sent (legacy)! Signature: " ++
                sig2.take 32 ++ "..."), [false, true]⟩
            | Except.error m2 =>
              ⟨some ("Both transaction formats failed. Versioned: " ++ errorMsg ++
                ". Legacy: " ++ msgOrDefault m2), none, [false, true]⟩
          else
            ⟨some (classifyTxError errorMsg), none, [false]⟩

/-- The `Home` page state touched by `fetchBalance` (`page.tsx` lines 40-66):
`conn` is `connectionRef.current` being non-null, `balanceLamports` the raw
lamport value behind the displayed balance string, and the remaining fields
the bookkeeping refs. -/
structure BalanceState where
  conn : Bool
  balanceLamports : ℕ
  isRefreshingBalance : Bool
  fetchInProgress : Bool
  lastFetchTime : ℕ
  hasFetched : Bool
  lastFetchedAddress : String
deriving DecidableEq

/-- A completed `fetchBalance` invocation: the resulting state, whether
`conn.getBalance` was actually called, and whether the `finally` block
scheduled the 500 ms timer that clears `isRefreshingBalance` and
`fetchInProgress`. -/
structure FetchResult where
  post : BalanceState
  didRead : Bool
  resetScheduled : Bool
deriving DecidableEq

/-- `fetchBalance` (`page.tsx` lines 207-255).  Early returns: no connection;
a fetch already in progress and not forced; not forced and less than 1000 ms
since the last recorded fetch time.  Otherwise it sets the in-progress guard
and the refreshing indicator, then tries `new PublicKey(address)` (modelled
by `validAddr`) and the external read (`readResult`; `none` models a throw).
Success stores the new lamports and bumps `lastFetchTime`; the catch block
deliberately leaves the previous balance in place; the `finally` block always
schedules the reset timer.  (The model treats the invocation as
instantaneous: the `Date.now()` stored on success is the call's `now`.) -/
def fetchBalance (validAddr : String → Bool) (s : BalanceState)
    (address : String) (forceRefresh : Bool) (now : ℕ)
    (readResult : Option ℕ) : FetchResult :=
  if s.conn = false then ⟨s, false, false⟩
  else if s.fetchInProgress = true ∧ forceRefresh = false then ⟨s, false, false⟩
  else if forceRefresh = false ∧ now - s.lastFetchTime < 1000 then ⟨s, false, false⟩
  else
    let s1 : BalanceState := { s with fetchInProgress := true, isRefreshingBalance := true }
    if validAddr address = false then ⟨s1, false, true⟩
    else
      match readResult with
      | some lamports =>
        ⟨{ s1 with
            balanceLamports := lamports,
            lastFetchTime := now,
            hasFetched := true,
            lastFetchedAddress := address }, true, true⟩
      | none => ⟨s1, true, true⟩

/-- The 500 ms timer scheduled by `fetchBalance`'s `finally` block
(`page.tsx` lines 248-254): clears the refreshing indicator and the
in-progress guard. -/
def applyResetTimer (s : BalanceState) : BalanceState :=
  { s with isRefreshingBalance := false, fetchInProgress := false }

/-- A concrete panel state with a send already in flight
(`isSending = true`), a non-empty recipient and an amount above the chunk
threshold. -/
def busyPanelState : PanelState :=
  { recipient := "addr", amount := 1 / 10, isSending := true,
    txError := none, txSuccess := none, message := "" }

/-- A concrete panel state with no send in flight, a non-empty recipient and
an amount above the chunk threshold. -/
def examplePanelState : PanelState :=
  { recipient := "addr", amount := 3 / 20, isSending := false,
    txError := none, txSuccess := none, message := "" }

/-- A concrete balance state: connection available, a fetch currently in
flight, and the last completed fetch recorded at time 0. -/
def busyFetchState : BalanceState :=
  { conn := true, balanceLamports := 42, isRefreshingBalance := true,
    fetchInProgress := true, lastFetchTime := 0, hasFetched := true,
    lastFetchedAddress := "A" }

end LazorKit

namespace LazorKit

/-- The greedy loop emits exactly as many chunks as it iterates. -/
theorem chunkLoopAmounts_length : ∀ (n : ℕ) (M r : ℚ),
    (chunkLoopAmounts n M r).length = n := by
  intro n
  induction n with
  | zero => intro M r; rfl
  | succ k ih =>
    intro M r
    show (min M r :: chunkLoopAmounts k M (r - min M r)).length = k + 1
    rw [List.length_cons, ih]

/-- Invariant of the greedy loop: when the remaining amount `r` satisfies
`n*M < r ≤ (n+1)*M`, running `n+1` iterations yields chunks that sum to `r`
and all lie in `(0, M]`. -/
theorem chunkLoopAmounts_spec (M : ℚ) (hM : 0 < M) :
    ∀ (n : ℕ) (r : ℚ), (n : ℚ) * M < r → r ≤ ((n : ℚ) + 1) * M →
      (chunkLoopAmounts (n + 1) M r).sum = r ∧
      ∀ c ∈ chunkLoopAmounts (n + 1) M r, 0 < c ∧ c ≤ M := by
  intro n
  induction n with
  | zero =>
    intro r h1 h2
    have hr0 : 0 < r := by simpa using h1
    have hrM : r ≤ M := by
      have h2' := h2
      push_cast at h2'
      linarith
    have he : chunkLoopAmounts (0 + 1) M r = [min M r] := rfl
    rw [he, min_eq_right hrM]
    refine ⟨by simp, ?_⟩
    intro c hc
    rw [List.mem_singleton] at hc
    subst hc
    exact ⟨hr0, hrM⟩
  | succ k ih =>
    intro r h1 h2
    have hk0 : (0 : ℚ) ≤ (k : ℚ) := Nat.cast_nonneg k
    have h1' : ((k : ℚ) + 1) * M < r := by push_cast at h1; linarith
    have h2' : r ≤ ((k : ℚ) + 2) * M := by push_cast at h2; linarith
    have hMr : M ≤ r := by nlinarith
    have hsub1 : (k : ℚ) * M < r - M := by linarith
    have hsub2 : r - M ≤ ((k : ℚ) + 1) * M := by linarith
    obtain ⟨hsum, hall⟩ := ih (r - M) hsub1 hsub2
    have he : chunkLoopAmounts (k + 1 + 1) M r =
        min M r :: chunkLoopAmounts (k + 1) M (r - min M r) := rfl
    rw [he, min_eq_left hMr]
    refine ⟨?_, ?_⟩
    · rw [List.sum_cons, hsum]; ring
    · intro c hc
      rw [List.mem_cons] at hc
      rcases hc with rfl | hc
      · exact ⟨hM, le_rfl⟩
      · exact hall c hc

/-- The chunk count `Math.ceil(total / M)` is one more than some `k`, and the
total lies strictly between `k*M` and `(k+1)*M` (inclusive above). -/
theorem ceil_chunk_bounds (total M : ℚ) (ht : 0 < total) (hM : 0 < M) :
    ∃ k : ℕ, ⌈total / M⌉ = (k : ℤ) + 1 ∧
      (k : ℚ) * M < total ∧ total ≤ ((k : ℚ) + 1) * M := by
  have hpos : 0 < ⌈total / M⌉ := Int.ceil_pos.mpr (div_pos ht hM)
  refine ⟨(⌈total / M⌉).toNat - 1, by omega, ?_, ?_⟩
  all_goals
    have hzk : (⌈total / M⌉ : ℤ) = (((⌈total / M⌉).toNat - 1 : ℕ) : ℤ) + 1 := by omega
    have hcQ : ((⌈total / M⌉ : ℤ) : ℚ) = (((⌈total / M⌉).toNat - 1 : ℕ) : ℚ) + 1 := by
      exact_mod_cast congrArg (fun z : ℤ => (z : ℚ)) hzk
  · have h1 : (⌈total / M⌉ : ℚ) < total / M + 1 := Int.ceil_lt_add_one _
    rw [hcQ] at h1
    have h2 : (((⌈total / M⌉).toNat - 1 : ℕ) : ℚ) < total / M := by linarith
    exact (lt_div_iff₀ hM).mp h2
  · have h1 : total / M ≤ (⌈total / M⌉ : ℚ) := Int.le_ceil _
    rw [hcQ] at h1
    exact (div_le_iff₀ hM).mp h1

/-- The full chunk-plan invariant: for positive total and bound, the greedy
chunk sequence sums exactly to the total, every chunk is positive and at most
the bound, and the number of chunks is `Math.ceil(total / M)`. -/
theorem chunkPlan_spec (total M : ℚ) (ht : 0 < total) (hM : 0 < M) :
    (chunkPlan total M).sum = total ∧
    (∀ c ∈ chunkPlan total M, 0 < c ∧ c ≤ M) ∧
    ((chunkPlan total M).length : ℤ) = ⌈total / M⌉ := by
  obtain ⟨k, hz, h1, h2⟩ := ceil_chunk_bounds total M ht hM
  have hk : (⌈total / M⌉).toNat = k + 1 := by omega
  have hs := chunkLoopAmounts_spec M hM k total h1 h2
  unfold chunkPlan
  rw [hk]
  refine ⟨hs.1, hs.2, ?_⟩
  rw [chunkLoopAmounts_length]
  omega

/-- When the total already fits in one chunk, the greedy plan is the
singleton `[total]`. -/
theorem chunkPlan_of_le (total M : ℚ) (ht : 0 < total) (hle : total ≤ M) :
    chunkPlan total M = [total] := by
  have hM : 0 < M := lt_of_lt_of_le ht hle
  have hc : ⌈total / M⌉ = 1 := by
    rw [Int.ceil_eq_iff]
    constructor
    · push_cast
      simpa using div_pos ht hM
    · push_cast
      exact (div_le_one hM).mpr hle
  unfold chunkPlan
  rw [hc]
  have he : chunkLoopAmounts 1 M total = [min M total] := rfl
  rw [show ((1 : ℤ)).toNat = 1 from rfl, he, min_eq_right hle]

/-- With an all-successful oracle, the external call amounts of the chunk loop
are exactly the greedy chunk sequence. -/
theorem sendLoop_allOk_calls (M : ℚ) (n : ℕ) :
    ∀ (k i : ℕ) (r : ℚ) (s : ℕ),
      callAmounts (sendLoop oracleAllOk M n i k r s).events =
        chunkLoopAmounts k M r := by
  intro k
  induction k with
  | zero => intro i r s; rfl
  | succ k ih =>
    intro i r s
    simp [sendLoop, oracleAllOk, callAmounts, chunkLoopAmounts, ih]

/-- If the oracle fails first at offset `d` within the remaining `k`
iterations, the loop attempts exactly `d + 1` external calls and rethrows the
wrapped failure message for chunk `i + d + 1` of `n`. -/
theorem sendLoop_first_fail (oracle : ℕ → Except String Unit) (M : ℚ) (n : ℕ)
    (m : String) :
    ∀ (k d i : ℕ) (r : ℚ) (s : ℕ), d < k → oracle (i + d) = Except.error m →
      (∀ e, e < d → oracle (i + e) = Except.ok ()) →
      (callAmounts (sendLoop oracle M n i k r s).events).length = d + 1 ∧
      (sendLoop oracle M n i k r s).result =
        Except.error ("Failed to send chunk " ++ toString (i + d + 1) ++ "/" ++
          toString n ++ ": " ++ m) := by
  intro k
  induction k with
  | zero =>
    intro d i r s hd _ _
    exact absurd hd (Nat.not_lt_zero d)
  | succ k ih =>
    intro d i r s hd hfail hok
    cases d with
    | zero =>
      have h0 : oracle i = Except.error m := by simpa using hfail
      simp [sendLoop, h0, callAmounts]
    | succ e =>
      have h0 : oracle i = Except.ok () := by
        have h := hok 0 (Nat.succ_pos e)
        simpa using h
      have hidx : i + 1 + e = i + (e + 1) := by omega
      have hrec := ih e (i + 1) (r - min M r) (s + 1) (by omega)
        (by rw [hidx]; exact hfail)
        (fun e' he' => by
          rw [show i + 1 + e' = i + (e' + 1) from by omega]
          exact hok (e' + 1) (by omega))
      have hidx2 : i + 1 + e + 1 = i + (e + 1) + 1 := by omega
      rw [hidx2] at hrec
      simp [sendLoop, h0, callAmounts]
      exact ⟨by rw [hrec.1], hrec.2⟩

/-- With an all-successful oracle, the loop completes all `k` iterations and
returns the accumulated success count. -/
theorem sendLoop_allOk_result (M : ℚ) (n : ℕ) :
    ∀ (k i : ℕ) (r : ℚ) (s : ℕ),
      (sendLoop oracleAllOk M n i k r s).result = Except.ok (some (s + k)) := by
  intro k
  induction k with
  | zero => intro i r s; rfl
  | succ k ih =>
    intro i r s
    simp [sendLoop, oracleAllOk, ih]
    omega

/-- The progress notifications of the chunk loop are exactly one per attempted
call, in order, numbered consecutively from `i + 1`. -/
theorem sendLoop_progs (oracle : ℕ → Except String Unit) (M : ℚ) (n : ℕ) :
    ∀ (k i : ℕ) (r : ℚ) (s : ℕ),
      progEvents (sendLoop oracle M n i k r s).events =
        (List.range' (i + 1)
          (callAmounts (sendLoop oracle M n i k r s).events).length).map
          (fun t => (t, n)) := by
  intro k
  induction k with
  | zero => intro i r s; rfl
  | succ k ih =>
    intro i r s
    cases h0 : oracle i with
    | ok u =>
      simp [sendLoop, h0, progEvents, callAmounts, List.range'_succ, ih]
    | error m =>
      simp [sendLoop, h0, progEvents, callAmounts, List.range'_succ]

/-- Whenever the loop's event trace contains an external call, the progress
notification numbering that call has already been emitted among the events
strictly before it. -/
theorem sendLoop_prog_before (oracle : ℕ → Except String Unit) (M : ℚ) (n : ℕ) :
    ∀ (k i : ℕ) (r : ℚ) (s : ℕ) (p q : List TxEvent) (c : ℚ),
      (sendLoop oracle M n i k r s).events = p ++ TxEvent.call c :: q →
      (i + (callAmounts p).length + 1, n) ∈ progEvents p := by
  intro k
  induction k with
  | zero =>
    intro i r s p q c h
    have h' : p ++ TxEvent.call c :: q = [] := by
      exact h.symm
    obtain ⟨-, h2⟩ := List.append_eq_nil.mp h'
    exact absurd h2 (List.cons_ne_nil _ _)
  | succ k ih =>
    intro i r s p q c h
    cases h0 : oracle i with
    | ok u =>
      rw [show (sendLoop oracle M n i (k + 1) r s).events =
          TxEvent.prog (i + 1) n :: TxEvent.call (min M r) ::
            (sendLoop oracle M n (i + 1) k (r - min M r) (s + 1)).events from by
        simp [sendLoop, h0]] at h
      cases p with
      | nil => simp at h
      | cons x p' =>
        rw [List.cons_append] at h
        injection h with hx h1
        subst hx
        cases p' with
        | nil =>
          simp [callAmounts, progEvents]
        | cons y p'' =>
          rw [List.cons_append] at h1
          injection h1 with hy h2
          subst hy
          have hmem := ih (i + 1) (r - min M r) (s + 1) p'' q c h2
          rw [show i + 1 + (callAmounts p'').length + 1 =
              i + ((callAmounts p'').length + 1) + 1 from by omega] at hmem
          simp only [callAmounts, progEvents, List.length_cons]
          exact List.mem_cons_of_mem _ hmem
    | error m =>
      rw [show (sendLoop oracle M n i (k + 1) r s).events =
          [TxEvent.prog (i + 1) n, TxEvent.call (min M r)] from by
        simp [sendLoop, h0]] at h
      cases p with
      | nil => simp at h
      | cons x p' =>
        rw [List.cons_append] at h
        injection h with hx h1
        subst hx
        cases p' with
        | nil =>
          simp [callAmounts, progEvents]
        | cons y p'' =>
          rw [List.cons_append] at h1
          injection h1 with hy h2
          subst hy
          have h2' : p'' ++ TxEvent.call c :: q = [] := h2.symm
          obtain ⟨-, h3⟩ := List.append_eq_nil.mp h2'
          exact absurd h3 (List.cons_ne_nil _ _)

end LazorKit

namespace LazorKit

/-- Claim C1: for every `totalAmount > 0` and `maxChunkAmount > 0`, the chunk
sequence generated by the greedy loop of `sendInChunks` (each chunk
`min(maxChunkAmount, remaining)`, decrementing `remaining`) is exactly the
amounts passed to the external transfer call; it sums exactly to
`totalAmount`, every chunk is positive and at most `maxChunkAmount`, and the
number of chunks is `ceil(totalAmount / maxChunkAmount)`. -/
theorem claim_C1_chunk_invariants (total M : ℚ) (ht : 0 < total) (hM : 0 < M) :
    callAmounts (sendInChunks oracleAllOk M total).events = chunkPlan total M ∧
    (chunkPlan total M).sum = total ∧
    (∀ c ∈ chunkPlan total M, 0 < c ∧ c ≤ M) ∧
    ((chunkPlan total M).length : ℤ) = ⌈total / M⌉ := by
  obtain ⟨hsum, hmem, hlen⟩ := chunkPlan_spec total M ht hM
  refine ⟨?_, hsum, hmem, hlen⟩
  by_cases hle : total ≤ M
  · rw [chunkPlan_of_le total M ht hle]
    cases h0 : oracleAllOk 0 <;>
      simp [sendInChunks, if_pos hle, h0, callAmounts]
  · simp only [sendInChunks, if_neg hle, callAmounts]
    rw [sendLoop_allOk_calls]
    rfl

/-- Witness for C1 at `totalAmount = 12/100`, `maxChunkAmount = 5/100`
(spec example 2: chunks `[0.05, 0.05, 0.02]`). -/
theorem claim_C1_witness :
    ((0 : ℚ) < 12 / 100) ∧ ((0 : ℚ) < 5 / 100) ∧
    (callAmounts (sendInChunks oracleAllOk (5 / 100) (12 / 100)).events =
        chunkPlan (12 / 100) (5 / 100) ∧
      (chunkPlan (12 / 100) (5 / 100)).sum = 12 / 100 ∧
      (∀ c ∈ chunkPlan (12 / 100) (5 / 100), 0 < c ∧ c ≤ 5 / 100) ∧
      ((chunkPlan (12 / 100) (5 / 100)).length : ℤ) =
        ⌈(12 / 100 : ℚ) / (5 / 100)⌉) :=
  ⟨by norm_num, by norm_num,
    claim_C1_chunk_invariants (12 / 100) (5 / 100) (by norm_num) (by norm_num)⟩

/-- Claim C2: if the external transfer for chunk `j + 1` (0-based oracle
index `j`) fails after all earlier chunks succeeded, exactly `j + 1` external
calls are attempted — chunks `j + 2 .. n` are never attempted. -/
theorem claim_C2_halt_on_failure (oracle : ℕ → Except String Unit)
    (total M : ℚ) (m : String) (j : ℕ)
    (hM : M < total) (hj : j < (⌈total / M⌉).toNat)
    (hfail : oracle j = Except.error m)
    (hok : ∀ e, e < j → oracle e = Except.ok ()) :
    (callAmounts (sendInChunks oracle M total).events).length = j + 1 := by
  simp only [sendInChunks, if_neg (not_le.mpr hM), callAmounts]
  exact (sendLoop_first_fail oracle M ((⌈total / M⌉).toNat) m
    ((⌈total / M⌉).toNat) j 0 total 0 hj (by simpa using hfail)
    (fun e he => by simpa using hok e he)).1

/-- Witness for C2: chunk 2 of 3 fails (spec example 3) — exactly two
external calls are attempted, chunk 3 is never invoked. -/
theorem claim_C2_witness :
    ((1 : ℚ) / 20 < 3 / 20) ∧
    (1 < (⌈(3 / 20 : ℚ) / (1 / 20)⌉).toNat) ∧
    (callAmounts (sendInChunks oracleFailAt2 (1 / 20) (3 / 20)).events).length
      = 1 + 1 := by
  have h3 : ⌈(3 / 20 : ℚ) / (1 / 20)⌉ = 3 := by norm_num [Int.ceil_eq_iff]
  refine ⟨by norm_num, by rw [h3]; decide, ?_⟩
  exact claim_C2_halt_on_failure oracleFailAt2 (3 / 20) (1 / 20) "boom" 1
    (by norm_num) (by rw [h3]; decide) rfl
    (fun e he => by
      have he0 : e = 0 := by omega
      subst he0
      rfl)

/-- Counterexample to C3 as stated: at `totalAmount = 0.15`,
`maxChunkAmount = 0.05`, with chunk 2 failing with message `boom`, the
orchestrator `sendInChunks` does not return a structured outcome carrying
`succeededChunks` and `failureReason` — its result is a thrown exception
(`Except.error`) whose payload is only the wrapped message string, and the
catching caller `handleSendTransaction` records just that string in
`txError`. -/
theorem claim_C3_counterexample :
    (sendInChunks oracleFailAt2 (1 / 20) (3 / 20)).result =
      Except.error "Failed to send chunk 2/3: boom" ∧
    (handleSendTransaction oracleFailAt2 examplePanelState).post.txError =
      some "Failed to send chunk 2/3: boom" ∧
    (handleSendTransaction oracleFailAt2 examplePanelState).post.txSuccess =
      none := by
  have h3 : ⌈((3 : ℚ) / 20) / ((1 : ℚ) / 20)⌉ = 3 := by
    norm_num [Int.ceil_eq_iff]
  have hrun : (sendInChunks oracleFailAt2 (1 / 20) (3 / 20)).result =
      Except.error "Failed to send chunk 2/3: boom" := by
    norm_num [sendInChunks, sendLoop, oracleFailAt2, min_def, h3]
    rfl
  have hcond : ¬ (jsTrim examplePanelState.recipient = "" ∨
      examplePanelState.amount ≤ 0) := by
    push_neg
    exact ⟨by decide, by norm_num [examplePanelState]⟩
  have hgt : MAX_CHUNK < examplePanelState.amount := by
    norm_num [MAX_CHUNK, examplePanelState]
  have hrunM : (sendInChunks oracleFailAt2 MAX_CHUNK
      examplePanelState.amount).result =
      Except.error "Failed to send chunk 2/3: boom" := hrun
  refine ⟨hrun, ?_, ?_⟩ <;>
    simp only [handleSendTransaction, if_neg hcond, if_pos hgt, hrunM]

/-- Amended C3: when chunk `j + 1` of `n` fails during a multi-chunk
submission, `sendInChunks` throws an error whose message records the failing
chunk position, the chunk count and the external error's message;
`handleSendTransaction` catches it at its boundary (no exception escapes) and
stores exactly that message in `txError`, with `txSuccess` unset and exactly
`j + 1` attempted calls — so the caller sees only the message string, and the
number of succeeded chunks (`j`) is recoverable only from the chunk position
embedded in it, not from a structured `succeededChunks` field. -/
theorem claim_C3_amended (oracle : ℕ → Except String Unit) (s : PanelState)
    (m : String) (j : ℕ)
    (hrec : ¬ jsTrim s.recipient = "") (hamt : MAX_CHUNK < s.amount)
    (hj : j < (⌈s.amount / MAX_CHUNK⌉).toNat)
    (hfail : oracle j = Except.error m)
    (hok : ∀ e, e < j → oracle e = Except.ok ()) :
    (handleSendTransaction oracle s).post.txError =
      some ("Failed to send chunk " ++ toString (j + 1) ++ "/" ++
        toString (⌈s.amount / MAX_CHUNK⌉).toNat ++ ": " ++ m) ∧
    (handleSendTransaction oracle s).post.txSuccess = none ∧
    (callAmounts (handleSendTransaction oracle s).events).length = j + 1 := by
  have hpos : ¬ s.amount ≤ 0 := by
    have h0 : (0 : ℚ) < MAX_CHUNK := by norm_num [MAX_CHUNK]
    intro hle
    linarith
  have hval : ¬ (jsTrim s.recipient = "" ∨ s.amount ≤ 0) := by tauto
  have hlf := sendLoop_first_fail oracle MAX_CHUNK
    ((⌈s.amount / MAX_CHUNK⌉).toNat) m ((⌈s.amount / MAX_CHUNK⌉).toNat) j 0
    s.amount 0 hj (by simpa using hfail) (fun e he => by simpa using hok e he)
  have hres := hlf.2
  rw [Nat.zero_add] at hres
  simp only [handleSendTransaction, if_neg hval, if_pos hamt, sendInChunks,
    if_neg (not_le.mpr hamt), hres, callAmounts]
  exact ⟨trivial, trivial, hlf.1⟩

/-- Witness for amended C3 at the counterexample input: the caught message
names chunk 2 of 3, and exactly two calls were attempted. -/
theorem claim_C3_amended_witness :
    (¬ (jsTrim examplePanelState.recipient = "")) ∧
    (MAX_CHUNK < examplePanelState.amount) ∧
    ((handleSendTransaction oracleFailAt2 examplePanelState).post.txError =
      some ("Failed to send chunk " ++ toString (1 + 1) ++ "/" ++
        toString (⌈examplePanelState.amount / MAX_CHUNK⌉).toNat ++ ": " ++
        "boom") ∧
     (handleSendTransaction oracleFailAt2 examplePanelState).post.txSuccess =
      none ∧
     (callAmounts
        (handleSendTransaction oracleFailAt2 examplePanelState).events).length
      = 1 + 1) := by
  have h3 : ⌈examplePanelState.amount / MAX_CHUNK⌉ = 3 := by
    norm_num [examplePanelState, MAX_CHUNK, Int.ceil_eq_iff]
  refine ⟨by decide, by norm_num [examplePanelState, MAX_CHUNK], ?_⟩
  exact claim_C3_amended oracleFailAt2 examplePanelState "boom" 1
    (by decide) (by norm_num [examplePanelState, MAX_CHUNK])
    (by rw [h3]; decide) rfl
    (fun e he => by
      have he0 : e = 0 := by omega
      subst he0
      rfl)

/-- Claim C4: for `0 < totalAmount ≤ maxChunkAmount`, `sendInChunks` performs
exactly one external transfer call carrying the full amount, whatever the
call's outcome, and the chunk plan is the single chunk `[totalAmount]`
(`totalChunks = 1`). -/
theorem claim_C4_single_chunk (oracle : ℕ → Except String Unit) (total M : ℚ)
    (ht : 0 < total) (hle : total ≤ M) :
    callAmounts (sendInChunks oracle M total).events = [total] ∧
    chunkPlan total M = [total] := by
  refine ⟨?_, chunkPlan_of_le total M ht hle⟩
  simp only [sendInChunks, if_pos hle]
  cases h0 : oracle 0 <;> simp [h0, callAmounts]

/-- Witness for C4 at `totalAmount = 0.001`, `maxChunkAmount = 0.05`
(spec example 1: one chunk `[0.001]`). -/
theorem claim_C4_witness :
    ((0 : ℚ) < 1 / 1000) ∧ ((1 : ℚ) / 1000 ≤ 1 / 20) ∧
    (callAmounts (sendInChunks oracleAllOk (1 / 20) (1 / 1000)).events =
        [1 / 1000] ∧
      chunkPlan (1 / 1000) (1 / 20) = [1 / 1000]) :=
  ⟨by norm_num, by norm_num,
    claim_C4_single_chunk oracleAllOk (1 / 1000) (1 / 20) (by norm_num)
      (by norm_num)⟩

/-- Claim C9: in a multi-chunk run the progress notifications are exactly one
`(i, totalChunks)` per attempted chunk `i` (plus the initial `(0, total)`),
emitted synchronously in increasing order with no buffering or coalescing —
and whenever a chunk is attempted, the notification numbering that attempt
has already been emitted among the strictly earlier events, whether the
attempt then succeeds or fails. -/
theorem claim_C9_progress (oracle : ℕ → Except String Unit) (total M : ℚ)
    (hM : M < total) :
    progEvents (sendInChunks oracle M total).events =
      (List.range
        ((callAmounts (sendInChunks oracle M total).events).length + 1)).map
        (fun t => (t, (⌈total / M⌉).toNat)) ∧
    ∀ (p q : List TxEvent) (c : ℚ),
      (sendInChunks oracle M total).events = p ++ TxEvent.call c :: q →
      ((callAmounts p).length + 1, (⌈total / M⌉).toNat) ∈ progEvents p := by
  constructor
  · simp only [sendInChunks, if_neg (not_le.mpr hM), progEvents, callAmounts]
    rw [sendLoop_progs, List.range_eq_range', List.range'_succ]
    simp
  · intro p q c h
    simp only [sendInChunks, if_neg (not_le.mpr hM)] at h
    cases p with
    | nil => simp at h
    | cons x p' =>
      rw [List.cons_append] at h
      injection h with hx h1
      subst hx
      have hmem := sendLoop_prog_before oracle M ((⌈total / M⌉).toNat)
        ((⌈total / M⌉).toNat) 0 total 0 p' q c h1
      rw [Nat.zero_add] at hmem
      simp only [callAmounts, progEvents]
      exact List.mem_cons_of_mem _ hmem

/-- Witness for C9 at `totalAmount = 0.15`, `maxChunkAmount = 0.05` with an
all-successful oracle. -/
theorem claim_C9_witness :
    ((1 : ℚ) / 20 < 3 / 20) ∧
    (progEvents (sendInChunks oracleAllOk (1 / 20) (3 / 20)).events =
      (List.range
        ((callAmounts (sendInChunks oracleAllOk (1 / 20) (3 / 20)).events).length
          + 1)).map
        (fun t => (t, (⌈(3 / 20 : ℚ) / (1 / 20)⌉).toNat)) ∧
    ∀ (p q : List TxEvent) (c : ℚ),
      (sendInChunks oracleAllOk (1 / 20) (3 / 20)).events =
        p ++ TxEvent.call c :: q →
      ((callAmounts p).length + 1, (⌈(3 / 20 : ℚ) / (1 / 20)⌉).toNat) ∈
        progEvents p) :=
  ⟨by norm_num, claim_C9_progress oracleAllOk (3 / 20) (1 / 20) (by norm_num)⟩

end LazorKit

namespace LazorKit

/-- A concrete `TransactionsButton` input: connected, transaction mode,
non-empty address, positive amount, wallet present. -/
def exampleBtnInput : BtnInput :=
  { isConnected := true, mode := BtnMode.transaction, address := "bad",
    amount := some 1, message := "", hasWallet := true }

/-- A concrete `TransactionsButton` input mirroring `busyPanelState`. -/
def busyBtnInput : BtnInput :=
  { isConnected := true, mode := BtnMode.transaction, address := "addr",
    amount := some (1 / 10), message := "", hasWallet := true }

/-- Claim C5: on a connected wallet in transaction mode, an empty (after
trim) recipient, a recipient rejected by the external address validator, or
a non-positive / missing amount makes `handleActions` fail with one of its
validation messages before any external transfer call: zero
`signAndSendTransaction` attempts and no success state. -/
theorem claim_C5_validation (validAddr : String → Bool) (inp : BtnInput)
    (tx1 tx2 signRes : Except String String)
    (hconn : inp.isConnected = true) (hmode : inp.mode = BtnMode.transaction)
    (hbad : jsTrim inp.address = "" ∨ validAddr inp.address = false ∨
      inp.amount.getD 0 ≤ 0) :
    (handleActions validAddr inp tx1 tx2 signRes).attempts = [] ∧
    (handleActions validAddr inp tx1 tx2 signRes).success = none ∧
    ((handleActions validAddr inp tx1 tx2 signRes).error =
        some "No receiver address provided." ∨
      (handleActions validAddr inp tx1 tx2 signRes).error =
        some "Please enter a valid amount greater than 0." ∨
      (handleActions validAddr inp tx1 tx2 signRes).error =
        some "Invalid Solana address. Please check and try again.") := by
  have hc : ¬ inp.isConnected = false := by simp [hconn]
  by_cases h1 : jsTrim inp.address = ""
  · simp [handleActions, if_neg hc, hmode, h1]
  · by_cases h2 : inp.amount.getD 0 ≤ 0
    · simp [handleActions, if_neg hc, hmode, h1, h2]
    · have h3 : validAddr inp.address = false := by
        rcases hbad with h | h | h
        · exact absurd h h1
        · exact h
        · exact absurd h h2
      simp [handleActions, if_neg hc, hmode, h1, h2, h3]

/-- Witness for C5: a syntactically invalid (validator-rejected) address is
rejected with the validation message and zero external calls. -/
theorem claim_C5_witness :
    (exampleBtnInput.isConnected = true) ∧
    (exampleBtnInput.mode = BtnMode.transaction) ∧
    ((handleActions (fun _ => false) exampleBtnInput (Except.ok "s")
        (Except.ok "s") (Except.ok "s")).attempts = [] ∧
      (handleActions (fun _ => false) exampleBtnInput (Except.ok "s")
        (Except.ok "s") (Except.ok "s")).success = none ∧
      ((handleActions (fun _ => false) exampleBtnInput (Except.ok "s")
          (Except.ok "s") (Except.ok "s")).error =
          some "No receiver address provided." ∨
        (handleActions (fun _ => false) exampleBtnInput (Except.ok "s")
          (Except.ok "s") (Except.ok "s")).error =
          some "Please enter a valid amount greater than 0." ∨
        (handleActions (fun _ => false) exampleBtnInput (Except.ok "s")
          (Except.ok "s") (Except.ok "s")).error =
          some "Invalid Solana address. Please check and try again.")) :=
  ⟨rfl, rfl,
    claim_C5_validation (fun _ => false) exampleBtnInput (Except.ok "s")
      (Except.ok "s") (Except.ok "s") rfl rfl (Or.inr (Or.inl rfl))⟩

/-- Counterexample to C8 as stated: with a send already in flight
(`isSending = true`), a new valid request (`0.1` SOL to a non-empty
recipient) is **not** rejected with a Busy condition — `handleSendTransaction`
proceeds and performs external transfer attempts, finishing with no error. -/
theorem claim_C8_counterexample :
    busyPanelState.isSending = true ∧
    (handleSendTransaction oracleAllOk busyPanelState).events ≠ [] ∧
    (handleSendTransaction oracleAllOk busyPanelState).post.txError = none := by
  have h2 : ⌈((1 : ℚ) / 10) / ((1 : ℚ) / 20)⌉ = 2 := by
    norm_num [Int.ceil_eq_iff]
  have hcond : ¬ (jsTrim busyPanelState.recipient = "" ∨
      busyPanelState.amount ≤ 0) := by
    push_neg
    exact ⟨by decide, by norm_num [busyPanelState]⟩
  have hgt : MAX_CHUNK < busyPanelState.amount := by
    norm_num [MAX_CHUNK, busyPanelState]
  have hrunM : (sendInChunks oracleAllOk MAX_CHUNK
      busyPanelState.amount).result = Except.ok (some 2) := by
    norm_num [sendInChunks, sendLoop, oracleAllOk, min_def, MAX_CHUNK,
      busyPanelState, h2]
  have hev : (sendInChunks oracleAllOk MAX_CHUNK
      busyPanelState.amount).events ≠ [] := by
    norm_num [sendInChunks, MAX_CHUNK, busyPanelState, h2]
    exact List.cons_ne_nil _ _
  refine ⟨rfl, ?_, ?_⟩
  · simp only [handleSendTransaction, if_neg hcond, if_pos hgt, hrunM]
    exact hev
  · simp only [handleSendTransaction, if_neg hcond, if_pos hgt, hrunM]

/-- Amended C8: the repository enforces no single-flight guard of its own —
`handleSendTransaction` behaves identically whether or not a send is already
in flight (its external calls, `txError` and `txSuccess` do not depend on
`isSending`); a busy condition is surfaced only when the external SDK itself
rejects with an `Already signing` error, which `handleActions` maps to the
message `Transaction already in progress. Please wait.` after a single
attempt (nothing is queued or retried). -/
theorem claim_C8_amended (oracle : ℕ → Except String Unit) (s : PanelState)
    (validAddr : String → Bool) (inp : BtnInput)
    (tx2 signRes : Except String String)
    (hconn : inp.isConnected = true) (hmode : inp.mode = BtnMode.transaction)
    (haddr : ¬ jsTrim inp.address = "") (hamt : 0 < inp.amount.getD 0)
    (hvalid : validAddr inp.address = true) (hw : inp.hasWallet = true) :
    ((handleSendTransaction oracle { s with isSending := true }).events =
        (handleSendTransaction oracle { s with isSending := false }).events ∧
      (handleSendTransaction oracle { s with isSending := true }).post.txError =
        (handleSendTransaction oracle { s with isSending := false }).post.txError ∧
      (handleSendTransaction oracle
          { s with isSending := true }).post.txSuccess =
        (handleSendTransaction oracle
          { s with isSending := false }).post.txSuccess) ∧
    ((handleActions validAddr inp (Except.error "Already signing") tx2
        signRes).error = some "Transaction already in progress. Please wait." ∧
      (handleActions validAddr inp (Except.error "Already signing") tx2
        signRes).attempts = [false]) := by
  constructor
  · by_cases h1 : jsTrim s.recipient = "" ∨ s.amount ≤ 0
    · simp [handleSendTransaction, h1]
    · by_cases hgt : MAX_CHUNK < s.amount
      · cases hres : (sendInChunks oracle MAX_CHUNK s.amount).result with
        | ok v => simp [handleSendTransaction, h1, hgt, hres]
        | error m => simp [handleSendTransaction, h1, hgt, hres]
      · simp [handleSendTransaction, h1, hgt]
  · have hc : ¬ inp.isConnected = false := by simp [hconn]
    have hna : ¬ inp.amount.getD 0 ≤ 0 := not_le.mpr hamt
    have hva : ¬ validAddr inp.address = false := by simp [hvalid]
    have hwv : ¬ inp.hasWallet = false := by simp [hw]
    have hfb : (includesStr (msgOrDefault "Already signing") "versioned" ||
        includesStr (msgOrDefault "Already signing") "VersionedTransaction" ||
        includesStr (msgOrDefault "Already signing") "too large") = false := by
      decide
    have hcl : classifyTxError (msgOrDefault "Already signing") =
        "Transaction already in progress. Please wait." := by decide
    simp only [handleActions, if_neg hc, hmode, if_neg haddr, if_neg hna,
      if_neg hva, if_neg hwv, hfb, hcl]
    simp

/-- Witness for amended C8 at concrete inputs. -/
theorem claim_C8_amended_witness :
    (busyBtnInput.isConnected = true) ∧
    (¬ jsTrim busyBtnInput.address = "") ∧
    (((handleSendTransaction oracleAllOk
          { busyPanelState with isSending := true }).events =
        (handleSendTransaction oracleAllOk
          { busyPanelState with isSending := false }).events ∧
      (handleSendTransaction oracleAllOk
          { busyPanelState with isSending := true }).post.txError =
        (handleSendTransaction oracleAllOk
          { busyPanelState with isSending := false }).post.txError ∧
      (handleSendTransaction oracleAllOk
          { busyPanelState with isSending := true }).post.txSuccess =
        (handleSendTransaction oracleAllOk
          { busyPanelState with isSending := false }).post.txSuccess) ∧
    ((handleActions (fun _ => true) busyBtnInput
        (Except.error "Already signing") (Except.ok "s2")
        (Except.ok "sg")).error =
        some "Transaction already in progress. Please wait." ∧
      (handleActions (fun _ => true) busyBtnInput
        (Except.error "Already signing") (Except.ok "s2")
        (Except.ok "sg")).attempts = [false])) :=
  ⟨rfl, by decide,
    claim_C8_amended oracleAllOk busyPanelState (fun _ => true) busyBtnInput
      (Except.ok "s2") (Except.ok "sg") rfl rfl (by decide)
      (by norm_num [busyBtnInput]) rfl rfl⟩

/-- Counterexample to C6 as stated: a non-forced `fetchBalance` call made
5000 ms after the last completed refresh (well past the 1000 ms debounce
interval) performs **zero** external reads when another fetch is still
flagged in progress — so the read does not happen if and only if
forced-or-debounce-elapsed. -/
theorem claim_C6_counterexample :
    1000 ≤ 5000 - busyFetchState.lastFetchTime ∧
    busyFetchState.conn = true ∧
    (fetchBalance (fun _ => true) busyFetchState "A" false 5000
      (some 7)).didRead = false := by decide

/-- Amended C6: `fetchBalance` performs the external read iff a connection
is available, the address parses, and either the call is forced or no fetch
is in progress and at least 1000 ms have elapsed since the last recorded
fetch time (a single global timestamp, not per-address); whenever no read is
performed the stored balance and timestamp are left unchanged. -/
theorem claim_C6_amended (validAddr : String → Bool) (s : BalanceState)
    (address : String) (forceRefresh : Bool) (now : ℕ)
    (readResult : Option ℕ) :
    ((fetchBalance validAddr s address forceRefresh now readResult).didRead
        = true ↔
      (s.conn = true ∧ validAddr address = true ∧
        (forceRefresh = true ∨
          (s.fetchInProgress = false ∧ 1000 ≤ now - s.lastFetchTime)))) ∧
    ((fetchBalance validAddr s address forceRefresh now readResult).didRead
        = false →
      (fetchBalance validAddr s address forceRefresh now
          readResult).post.balanceLamports = s.balanceLamports ∧
      (fetchBalance validAddr s address forceRefresh now
          readResult).post.lastFetchTime = s.lastFetchTime) := by
  rcases readResult with _ | lam <;>
    cases forceRefresh <;>
      (unfold fetchBalance
       split_ifs with h1 h2 h3 h4 <;>
         simp_all)

/-- Witness for amended C6 at a concrete forced call with a fetch in
progress: the read happens (force bypasses the in-progress guard). -/
theorem claim_C6_amended_witness :
    ((fetchBalance (fun _ => true) busyFetchState "A" true 5000
        (some 7)).didRead = true ↔
      (busyFetchState.conn = true ∧ (fun _ => true) "A" = true ∧
        (true = true ∨
          (busyFetchState.fetchInProgress = false ∧
            1000 ≤ 5000 - busyFetchState.lastFetchTime)))) ∧
    ((fetchBalance (fun _ => true) busyFetchState "A" true 5000
        (some 7)).didRead = false →
      (fetchBalance (fun _ => true) busyFetchState "A" true 5000
          (some 7)).post.balanceLamports = busyFetchState.balanceLamports ∧
      (fetchBalance (fun _ => true) busyFetchState "A" true 5000
          (some 7)).post.lastFetchTime = busyFetchState.lastFetchTime) :=
  claim_C6_amended (fun _ => true) busyFetchState "A" true 5000 (some 7)

/-- Claim C7: when the external balance read throws (`readResult = none`),
the stored balance value and the last-refresh timestamp are exactly what
they were before the call — the snapshot is never blanked or overwritten on
error. -/
theorem claim_C7_no_blanking (validAddr : String → Bool) (s : BalanceState)
    (address : String) (forceRefresh : Bool) (now : ℕ) :
    (fetchBalance validAddr s address forceRefresh now
        none).post.balanceLamports = s.balanceLamports ∧
    (fetchBalance validAddr s address forceRefresh now
        none).post.lastFetchTime = s.lastFetchTime := by
  unfold fetchBalance
  split_ifs <;> simp

/-- Claim C10: every `fetchBalance` invocation either leaves the state
entirely untouched (an early return that never set the guard) or schedules
the `finally` reset timer — in particular every invocation that actually
performed the external read (successful or thrown) schedules it — and firing
that timer clears both the fetch-in-progress guard and the refreshing
indicator, so no single completed or failed fetch blocks later reads. -/
theorem claim_C10_guard_reset (validAddr : String → Bool) (s : BalanceState)
    (address : String) (forceRefresh : Bool) (now : ℕ)
    (readResult : Option ℕ) :
    ((fetchBalance validAddr s address forceRefresh now
        readResult).resetScheduled = true ∨
      (fetchBalance validAddr s address forceRefresh now readResult).post
        = s) ∧
    ((fetchBalance validAddr s address forceRefresh now readResult).didRead
        = true →
      (fetchBalance validAddr s address forceRefresh now
        readResult).resetScheduled = true) ∧
    (applyResetTimer (fetchBalance validAddr s address forceRefresh now
        readResult).post).fetchInProgress = false ∧
    (applyResetTimer (fetchBalance validAddr s address forceRefresh now
        readResult).post).isRefreshingBalance = false := by
  rcases readResult with _ | lam <;>
    (unfold fetchBalance applyResetTimer
     split_ifs <;> simp)

/-- Witness for C10 at a concrete throwing read: the reset timer is
scheduled and firing it clears both flags. -/
theorem claim_C10_witness :
    ((fetchBalance (fun _ => true) busyFetchState "A" true 5000
        none).resetScheduled = true ∨
      (fetchBalance (fun _ => true) busyFetchState "A" true 5000 none).post
        = busyFetchState) ∧
    ((fetchBalance (fun _ => true) busyFetchState "A" true 5000
        none).didRead = true →
      (fetchBalance (fun _ => true) busyFetchState "A" true 5000
        none).resetScheduled = true) ∧
    (applyResetTimer (fetchBalance (fun _ => true) busyFetchState "A" true
        5000 none).post).fetchInProgress = false ∧
    (applyResetTimer (fetchBalance (fun _ => true) busyFetchState "A" true
        5000 none).post).isRefreshingBalance = false :=
  claim_C10_guard_reset (fun _ => true) busyFetchState "A" true 5000 none

end LazorKit
